import Mathlib

/-!
Shallow embedding of the DS620 temperature sensor driver
(src/Include/ds620.h).  The repository ships only the header: the
constants, the configuration union and the function declarations with
their doc comments are taken from src/Include/ds620.h; the function
bodies live in a ds620.c that is not part of src/, so they are modelled
from the specification (each such definition is marked
`Modelled from the spec:`).

Machine integers are embedded as Nat bit patterns (reduced mod 2^8 or
2^16 where the C type is a byte or a short); the signed short result of
ds620_ToDecimal is an Int.  The external two-wire bus transport is
modelled by a trace of bus operations together with an explicit device
state (volatile SRAM shadow registers and non-volatile EEPROM), so that
each driver operation is a pure function returning its result, the new
device state, and the exact sequence of bus transactions it issues.
-/

namespace DS620

/-- From ds620.h line 40: first 4 bits are fixed, followed by the 3 bit
sensor ID then the I2C R/W bit. -/
def DS620_ADDRESS_MASK : Nat := 0b10010000

/-- Start converting temperature command (ds620.h line 43). -/
def DS620_START_CONVERT : Nat := 0x51

/-- Stop converting temperature command (ds620.h line 45). -/
def DS620_STOP_CONVERT : Nat := 0x22

/-- Copy data from EEPROM to SRAM (shadow registers) command (ds620.h line 47). -/
def DS620_RECALL_DATA : Nat := 0xB8

/-- Copy data from SRAM (shadow registers) to EEPROM command (ds620.h line 49). -/
def DS620_COPY_DATA : Nat := 0x48

/-- Thermostat upper trip-point (MSB). -/
def DS620_TH_MSB : Nat := 0xA0

/-- Thermostat upper trip-point (LSB). -/
def DS620_TH_LSB : Nat := 0xA1

/-- Thermostat lower trip-point (MSB). -/
def DS620_TL_MSB : Nat := 0xA2

/-- Thermostat lower trip-point (LSB). -/
def DS620_TL_LSB : Nat := 0xA3

/-- Current temperature (MSB). -/
def DS620_TEMP_MSB : Nat := 0xAA

/-- Current temperature (LSB). -/
def DS620_TEMP_LSB : Nat := 0xAB

/-- Internal configuration register (MSB). -/
def DS620_CONFIG_MSB : Nat := 0xAC

/-- Internal configuration register (LSB). -/
def DS620_CONFIG_LSB : Nat := 0xAD

/-- Modelled from the spec: the body of the internal helper
_ds620_GetI2CAddress is in ds620.c, which is absent from src/ (only its
declaration at ds620.h line 134 is present).  Per the spec (section 4.1
and 6): left-shift the 3-bit sensor identifier into bit positions 1-3 of
the fixed base pattern 0b10010000; the read/write bit (bit 0) is supplied
separately by the transport layer and is not set here. -/
def _ds620_GetI2CAddress (address : Nat) : Nat :=
  DS620_ADDRESS_MASK ||| (address <<< 1)

/-- Two's-complement reinterpretation of a 16-bit pattern as a signed
value, the meaning the C type short gives the bits. -/
def sext16 (bits : Nat) : Int :=
  if bits % 65536 < 32768 then ((bits % 65536 : Nat) : Int)
  else ((bits % 65536 : Nat) : Int) - 65536

/-- Modelled from the spec: the body of ds620_ToDecimal is in ds620.c,
which is absent from src/ (only its declaration at ds620.h line 205 is
present).  Per the spec (section 4.5): mask off the low 7 bits of the
16-bit reading, then arithmetic-right-shift by 7, preserving the
two's-complement sign of the 9-bit integer field (the shift is taken on
the signed reinterpretation of the masked pattern, so the sign bit is
replicated).  The Nat argument carries the 16-bit pattern of the C short
parameter. -/
def ds620_ToDecimal (reading : Nat) : Int :=
  sext16 (reading % 65536 - reading % 128) >>> 7

/-- One bus transaction, as seen by the external two-wire transport
collaborator of spec section 6: a positioned byte read, a positioned
byte write, or a bare command byte with no register address component. -/
inductive BusOp where
  | readByte (busAddr reg : Nat)
  | writeByte (busAddr reg data : Nat)
  | command (busAddr cmd : Nat)
deriving DecidableEq

/-- Returns true exactly on read transactions, used to state that an
operation performs no polling. -/
def BusOp.isRead : BusOp → Bool
  | .readByte _ _ => true
  | _ => false

/-- Returns true exactly on transactions that carry a register address
component. -/
def BusOp.hasRegister : BusOp → Bool
  | .readByte _ _ => true
  | .writeByte _ _ _ => true
  | .command _ _ => false

/-- The device state the driver acts on: volatile SRAM shadow registers
and non-volatile EEPROM, one byte per register address. -/
structure Device where
  sram : Nat → Nat
  eeprom : Nat → Nat

/-- Modelled from the spec: the body of ds620_ReadRegister8 is in
ds620.c, absent from src/.  Per spec section 4.2: issue one bus read
transaction at the resolved device address, positioned at the given
register, and return the single byte received. -/
def ds620_ReadRegister8 (dev : Device) (address reg : Nat) : Nat × List BusOp :=
  (dev.sram reg % 256, [BusOp.readByte (_ds620_GetI2CAddress address) reg])

/-- Modelled from the spec: the body of ds620_ReadRegister16 is in
ds620.c, absent from src/.  Per spec section 4.2: issue two sequential
8-bit reads at reg and reg+1 and combine as
(first_byte <<< 8) ||| second_byte, MSB first. -/
def ds620_ReadRegister16 (dev : Device) (address reg : Nat) : Nat × List BusOp :=
  let msb := ds620_ReadRegister8 dev address reg
  let lsb := ds620_ReadRegister8 dev address (reg + 1)
  ((msb.1 <<< 8) ||| lsb.1, msb.2 ++ lsb.2)

/-- Modelled from the spec: the body of ds620_WriteRegister8 is in
ds620.c, absent from src/.  Per spec section 4.3: issue one bus write
transaction; it alters the volatile SRAM shadow register only. -/
def ds620_WriteRegister8 (dev : Device) (address reg data : Nat) : Device × List BusOp :=
  ({ dev with sram := fun r => if r = reg then data % 256 else dev.sram r },
   [BusOp.writeByte (_ds620_GetI2CAddress address) reg (data % 256)])

/-- Modelled from the spec: the body of ds620_WriteRegister16 is in
ds620.c, absent from src/.  Per spec section 4.3: split the 16-bit data
into MSB and LSB and issue two sequential 8-bit writes, MSB first to reg
and then LSB to reg+1.  The Nat data argument carries the pattern of the
C unsigned short parameter, hence the mod 2^16 reduction. -/
def ds620_WriteRegister16 (dev : Device) (address reg data : Nat) : Device × List BusOp :=
  let w1 := ds620_WriteRegister8 dev address reg ((data % 65536) >>> 8)
  let w2 := ds620_WriteRegister8 w1.1 address (reg + 1) (data % 256)
  (w2.1, w1.2 ++ w2.2)

/-- Modelled from the spec: the body of ds620_CopyData is in ds620.c,
absent from src/.  Per spec section 4.4: issue the single command byte
0x48 that copies the shadow registers to EEPROM, and return without
polling the configuration register for completion. -/
def ds620_CopyData (dev : Device) (address : Nat) : Device × List BusOp :=
  ({ dev with eeprom := dev.sram },
   [BusOp.command (_ds620_GetI2CAddress address) DS620_COPY_DATA])

/-- Modelled from the spec: the body of ds620_StartConversion is in
ds620.c, absent from src/.  Per spec section 4.6: issue the documented
single command byte 0x51 with no register address component. -/
def ds620_StartConversion (dev : Device) (address : Nat) : Device × List BusOp :=
  (dev, [BusOp.command (_ds620_GetI2CAddress address) DS620_START_CONVERT])

/-- Modelled from the spec: the body of ds620_StopConversion is in
ds620.c, absent from src/.  Per spec section 4.6: issue the documented
single command byte 0x22 with no register address component. -/
def ds620_StopConversion (dev : Device) (address : Nat) : Device × List BusOp :=
  (dev, [BusOp.command (_ds620_GetI2CAddress address) DS620_STOP_CONVERT])

/-- The named-bitfield view of the ds620_config union (ds620.h lines
85-124): sixteen single-bit unsigned fields, declared DONE first.  The
target allocates bit-fields starting at the least significant bit, so
DONE occupies bit 0 of the 16-bit value and USER0 bit 15. -/
structure ds620_config_bits where
  DONE : Nat
  NVB : Nat
  THF : Nat
  TLF : Nat
  R1 : Nat
  R0 : Nat
  AUTOC : Nat
  ONESHOT : Nat
  PO2 : Nat
  PO1 : Nat
  A2 : Nat
  A1 : Nat
  A0 : Nat
  USER2 : Nat
  USER1 : Nat
  USER0 : Nat
deriving DecidableEq

/-- Reading the named-bitfield view out of the raw 16-bit value of the
ds620_config union: field i of the declaration order is bit i. -/
def ds620_config_bitsOfValue (v : Nat) : ds620_config_bits :=
  ⟨v % 2, v / 2 % 2, v / 4 % 2, v / 8 % 2,
   v / 16 % 2, v / 32 % 2, v / 64 % 2, v / 128 % 2,
   v / 256 % 2, v / 512 % 2, v / 1024 % 2, v / 2048 % 2,
   v / 4096 % 2, v / 8192 % 2, v / 16384 % 2, v / 32768 % 2⟩

/-- Reading the raw 16-bit value of the ds620_config union out of the
named-bitfield view: bit i is field i of the declaration order. -/
def ds620_config_valueOfBits (b : ds620_config_bits) : Nat :=
  b.DONE + 2 * b.NVB + 4 * b.THF + 8 * b.TLF +
  16 * b.R1 + 32 * b.R0 + 64 * b.AUTOC + 128 * b.ONESHOT +
  256 * b.PO2 + 512 * b.PO1 + 1024 * b.A2 + 2048 * b.A1 +
  4096 * b.A0 + 8192 * b.USER2 + 16384 * b.USER1 + 32768 * b.USER0

/-- Well-formedness of the bitfield view: every field of the C union is
a single bit. -/
def ds620_config_wf (b : ds620_config_bits) : Prop :=
  b.DONE < 2 ∧ b.NVB < 2 ∧ b.THF < 2 ∧ b.TLF < 2 ∧
  b.R1 < 2 ∧ b.R0 < 2 ∧ b.AUTOC < 2 ∧ b.ONESHOT < 2 ∧
  b.PO2 < 2 ∧ b.PO1 < 2 ∧ b.A2 < 2 ∧ b.A1 < 2 ∧
  b.A0 < 2 ∧ b.USER2 < 2 ∧ b.USER1 < 2 ∧ b.USER0 < 2

instance (b : ds620_config_bits) : Decidable (ds620_config_wf b) := by
  unfold ds620_config_wf
  infer_instance

/-- A concrete device used to instantiate hypotheses of the theorems
below: SRAM holds 0x01 at the temperature MSB register 0xAA and 0x80 at
the LSB register 0xAB, all other bytes are zero. -/
def devW : Device :=
  ⟨fun r => if r = 0xAA then 0x01 else if r = 0xAB then 0x80 else 0, fun _ => 0⟩

/-- A concrete well-formed configuration bitfield view, used to
instantiate hypotheses of the aliasing theorem. -/
def cfgW : ds620_config_bits :=
  ⟨1, 0, 1, 0, 1, 1, 0, 1, 0, 0, 1, 0, 1, 1, 0, 1⟩

/-- Closed form of ds620_ToDecimal on a 16-bit pattern b: the value is
the 9-bit field b / 128, sign-corrected by 512 when the sign bit of the
16-bit reading is set. -/
theorem toDecimal_aux (b : Nat) (hb : b < 65536) :
    sext16 (b - b % 128) >>> 7 =
      if b < 32768 then ((b / 128 : Nat) : Int) else ((b / 128 : Nat) : Int) - 512 := by
  unfold sext16
  have hmaskmod : (b - b % 128) % 65536 = 128 * (b / 128) := by omega
  rw [hmaskmod]
  by_cases h : b < 32768
  · have h1 : 128 * (b / 128) < 32768 := by omega
    rw [if_pos h1, if_pos h]
    have he : ((128 * (b / 128) : Nat) : Int) >>> 7 = ((128 * (b / 128)) >>> 7 : Nat) := rfl
    rw [he, Nat.shiftRight_eq_div_pow]
    have h2 : 128 * (b / 128) / 2 ^ 7 = b / 128 := by omega
    rw [h2]
  · have h1 : ¬ 128 * (b / 128) < 32768 := by omega
    rw [if_neg h1, if_neg h]
    have hneg : ((128 * (b / 128) : Nat) : Int) - 65536
        = Int.negSucc (65535 - 128 * (b / 128)) := by
      rw [Int.negSucc_eq]
      omega
    rw [hneg]
    have hsr : Int.negSucc (65535 - 128 * (b / 128)) >>> 7
        = Int.negSucc ((65535 - 128 * (b / 128)) >>> 7) := rfl
    rw [hsr, Nat.shiftRight_eq_div_pow, Int.negSucc_eq]
    omega

/-- Closed form of ds620_ToDecimal on an arbitrary Nat argument. -/
theorem toDecimal_eq (r : Nat) :
    ds620_ToDecimal r =
      if r % 65536 < 32768 then (((r % 65536) / 128 : Nat) : Int)
      else (((r % 65536) / 128 : Nat) : Int) - 512 := by
  unfold ds620_ToDecimal
  have hmm : r % 128 = (r % 65536) % 128 := (Nat.mod_mod_of_dvd r (by norm_num)).symm
  rw [hmm]
  exact toDecimal_aux (r % 65536) (Nat.mod_lt _ (by norm_num))

/-- MSB-first packing of two bytes: shifting the high byte left by 8 and
or-ing in a low byte below 256 is plain place-value arithmetic. -/
theorem byte_pack (m l : Nat) (hl : l < 256) : (m <<< 8) ||| l = 256 * m + l := by
  apply Nat.eq_of_testBit_eq
  intro i
  rw [Nat.testBit_lor, Nat.testBit_shiftLeft]
  have h256 : (256 : Nat) * m = 2 ^ 8 * m := by norm_num
  rw [h256, Nat.testBit_mul_pow_two_add m (show l < 2 ^ 8 by omega) i]
  by_cases hi : i < 8
  · simp [hi, Nat.not_le.mpr hi]
  · have hge : i ≥ 8 := Nat.le_of_not_lt hi
    have hlt : l.testBit i = false := by
      apply Nat.testBit_lt_two_pow
      calc l < 256 := hl
        _ = 2 ^ 8 := by norm_num
        _ ≤ 2 ^ i := Nat.pow_le_pow_right (by norm_num) hge
    simp [hi, hge, hlt]

/-- Claim C1: for every 16-bit input reading, ds620_ToDecimal equals the
value obtained by masking off the low 7 bits and arithmetic-right-shifting
by 7 preserving the two's-complement sign of the top 9-bit field: stated
independently of the implementation, the result d is the floor of the
signed 16-bit value divided by 128 (characterized by
128 * d being the largest multiple of 128 not exceeding sext16 r); in
particular reading 0b0000000100000000 decodes to +2, and any reading
whose top 9 bits are the two's-complement encoding 510 of -2 decodes
to -2. -/
theorem ds620_ToDecimal_decode (r : Nat) (h : r < 65536) :
    (128 * ds620_ToDecimal r ≤ sext16 r ∧ sext16 r < 128 * (ds620_ToDecimal r + 1)) ∧
    ds620_ToDecimal 0b0000000100000000 = 2 ∧
    (r >>> 7 = 510 → ds620_ToDecimal r = -2) := by
  refine ⟨?_, by decide, ?_⟩
  · rw [toDecimal_eq]
    unfold sext16
    have h1 : r % 65536 = r := Nat.mod_eq_of_lt h
    rw [h1]
    by_cases h2 : r < 32768
    · rw [if_pos h2, if_pos h2]
      omega
    · rw [if_neg h2, if_neg h2]
      omega
  · intro h510
    rw [toDecimal_eq]
    rw [Nat.shiftRight_eq_div_pow] at h510
    have h1 : r % 65536 = r := Nat.mod_eq_of_lt h
    rw [h1]
    have h2 : ¬ r < 32768 := by omega
    rw [if_neg h2]
    omega

/-- Witness for C1 at reading 0xFF00, whose top 9 bits are 510, the
two's-complement encoding of -2. -/
theorem ds620_ToDecimal_decode_witness :
    (65280 : Nat) < 65536 ∧ (65280 : Nat) >>> 7 = 510 ∧ ds620_ToDecimal 65280 = -2 :=
  ⟨by decide, by decide, (ds620_ToDecimal_decode 65280 (by decide)).2.2 (by decide)⟩

/-- Claim C2: for every sensor identifier s in 0..7 the resolved bus
address has top 4 bits equal to the fixed pattern 0b1001, bits 1-3 equal
to s, and the read/write bit (bit 0) clear. -/
theorem ds620_GetI2CAddress_pattern : ∀ s : Nat, s < 8 →
    (_ds620_GetI2CAddress s) >>> 4 = 0b1001 ∧
    ((_ds620_GetI2CAddress s) >>> 1) % 8 = s ∧
    (_ds620_GetI2CAddress s) % 2 = 0 := by decide

/-- Witness for C2 at sensor identifier 5. -/
theorem ds620_GetI2CAddress_pattern_witness :
    (5 : Nat) < 8 ∧
    ((_ds620_GetI2CAddress 5) >>> 4 = 0b1001 ∧
     ((_ds620_GetI2CAddress 5) >>> 1) % 8 = 5 ∧
     (_ds620_GetI2CAddress 5) % 2 = 0) :=
  ⟨by decide, ds620_GetI2CAddress_pattern 5 (by decide)⟩

/-- Claim C3: ds620_ReadRegister16 issues two sequential 8-bit reads at
reg and reg+1 and returns the first byte shifted left by 8 or-ed with
the second byte (MSB first); on the concrete device devW, whose bytes
at 0xAA and 0xAB are 0x01 and 0x80, the returned value is 0x0180. -/
theorem ds620_ReadRegister16_msbFirst (dev : Device) (address reg : Nat) :
    (ds620_ReadRegister16 dev address reg).2 =
      [BusOp.readByte (_ds620_GetI2CAddress address) reg,
       BusOp.readByte (_ds620_GetI2CAddress address) (reg + 1)] ∧
    (ds620_ReadRegister16 dev address reg).1 =
      ((dev.sram reg % 256) <<< 8) ||| (dev.sram (reg + 1) % 256) ∧
    (ds620_ReadRegister16 devW 1 0xAA).1 = 0x0180 :=
  ⟨rfl, rfl, by decide⟩

/-- Claim C4: ds620_WriteRegister16 splits the 16-bit data into MSB and
LSB and issues two sequential 8-bit writes, MSB first to reg then LSB to
reg+1, and it changes nothing in the non-volatile EEPROM state. -/
theorem ds620_WriteRegister16_msbFirst (dev : Device) (address reg data : Nat)
    (h : data < 65536) :
    (ds620_WriteRegister16 dev address reg data).2 =
      [BusOp.writeByte (_ds620_GetI2CAddress address) reg (data >>> 8),
       BusOp.writeByte (_ds620_GetI2CAddress address) (reg + 1) (data % 256)] ∧
    (ds620_WriteRegister16 dev address reg data).1.eeprom = dev.eeprom := by
  constructor
  · unfold ds620_WriteRegister16 ds620_WriteRegister8
    dsimp only
    have h1 : data % 65536 = data := Nat.mod_eq_of_lt h
    rw [h1]
    have h2 : data >>> 8 % 256 = data >>> 8 := by
      rw [Nat.shiftRight_eq_div_pow]
      omega
    have h3 : data % 256 % 256 = data % 256 := by omega
    rw [h2, h3]
    rfl
  · rfl

/-- Witness for C4 at device devW, sensor 1, register 0xA0, data 0x1234. -/
theorem ds620_WriteRegister16_msbFirst_witness :
    (0x1234 : Nat) < 65536 ∧
    ((ds620_WriteRegister16 devW 1 0xA0 0x1234).2 =
       [BusOp.writeByte (_ds620_GetI2CAddress 1) 0xA0 ((0x1234 : Nat) >>> 8),
        BusOp.writeByte (_ds620_GetI2CAddress 1) (0xA0 + 1) ((0x1234 : Nat) % 256)] ∧
     (ds620_WriteRegister16 devW 1 0xA0 0x1234).1.eeprom = devW.eeprom) :=
  ⟨by decide, ds620_WriteRegister16_msbFirst devW 1 0xA0 0x1234 (by decide)⟩

/-- Claim C5: the named-bitfield view and the raw 16-bit value of the
configuration register alias the same bits: converting a 16-bit raw
value to the bitfield view and back is the identity, converting a
well-formed bitfield view to the raw value and back is the identity
(so a mutation through either view is seen through the other), and
setting bit 0 of the raw value makes the DONE flag of the bitfield view
read as set. -/
theorem ds620_config_union_alias (v : Nat) (hv : v < 65536) (b : ds620_config_bits)
    (hb : ds620_config_wf b) :
    ds620_config_valueOfBits (ds620_config_bitsOfValue v) = v ∧
    ds620_config_bitsOfValue (ds620_config_valueOfBits b) = b ∧
    (ds620_config_bitsOfValue (v ||| 1)).DONE = 1 := by
  refine ⟨?_, ?_, ?_⟩
  · unfold ds620_config_valueOfBits ds620_config_bitsOfValue
    dsimp only
    omega
  · obtain ⟨d, nv, th, tl, r1, r0, au, os, p2, p1, a2, a1, a0, u2, u1, u0⟩ := b
    obtain ⟨h1, h2, h3, h4, h5, h6, h7, h8, h9, h10, h11, h12, h13, h14, h15, h16⟩ := hb
    unfold ds620_config_bitsOfValue ds620_config_valueOfBits
    dsimp only at h1 h2 h3 h4 h5 h6 h7 h8 h9 h10 h11 h12 h13 h14 h15 h16 ⊢
    simp only [ds620_config_bits.mk.injEq]
    omega
  · unfold ds620_config_bitsOfValue
    dsimp only
    have h : (v ||| 1).testBit 0 = (v.testBit 0 || (1 : Nat).testBit 0) := Nat.testBit_lor v 1 0
    simp only [Nat.testBit_zero] at h
    simp only [decide_True, Bool.or_true] at h
    exact of_decide_eq_true h

/-- Witness for C5 at raw value 0x2A5A and the concrete bitfield cfgW. -/
theorem ds620_config_union_alias_witness :
    (0x2A5A : Nat) < 65536 ∧ ds620_config_wf cfgW ∧
    (ds620_config_valueOfBits (ds620_config_bitsOfValue 0x2A5A) = 0x2A5A ∧
     ds620_config_bitsOfValue (ds620_config_valueOfBits cfgW) = cfgW ∧
     (ds620_config_bitsOfValue ((0x2A5A : Nat) ||| 1)).DONE = 1) :=
  ⟨by decide, by decide, ds620_config_union_alias 0x2A5A (by decide) cfgW (by decide)⟩

/-- Claim C6: ds620_StartConversion issues exactly the single command
byte 0x51 and ds620_StopConversion exactly the single command byte 0x22,
and neither trace contains any transaction carrying a register address
component. -/
theorem ds620_conversion_commands (dev : Device) (address : Nat) :
    (ds620_StartConversion dev address).2 =
      [BusOp.command (_ds620_GetI2CAddress address) 0x51] ∧
    (ds620_StopConversion dev address).2 =
      [BusOp.command (_ds620_GetI2CAddress address) 0x22] ∧
    ((ds620_StartConversion dev address).2.filter BusOp.hasRegister) = [] ∧
    ((ds620_StopConversion dev address).2.filter BusOp.hasRegister) = [] :=
  ⟨rfl, rfl, rfl, rfl⟩

/-- Claim C7: ds620_CopyData issues exactly the single command byte 0x48
and returns without polling: its trace contains no read transaction, so
the configuration register NVB flag is never inspected. -/
theorem ds620_CopyData_single_command (dev : Device) (address : Nat) :
    (ds620_CopyData dev address).2 =
      [BusOp.command (_ds620_GetI2CAddress address) 0x48] ∧
    ((ds620_CopyData dev address).2.filter BusOp.isRead) = [] :=
  ⟨rfl, rfl⟩

/-- Claim C8: writing a 16-bit value to a register pair and reading the
pair back yields the same value; the modelled device is passive (it
mutates only under bus writes), which is the no-self-mutation assumption
of the claim. -/
theorem ds620_writeRead_roundTrip (dev : Device) (address address2 reg data : Nat)
    (h : data < 65536) :
    (ds620_ReadRegister16 (ds620_WriteRegister16 dev address reg data).1 address2 reg).1
      = data := by
  unfold ds620_ReadRegister16 ds620_ReadRegister8 ds620_WriteRegister16 ds620_WriteRegister8
  dsimp only
  have hne : reg ≠ reg + 1 := by omega
  rw [if_neg hne, if_pos rfl, if_pos rfl]
  have h1 : data % 65536 = data := Nat.mod_eq_of_lt h
  rw [h1]
  rw [Nat.shiftRight_eq_div_pow]
  have h2 : data / 2 ^ 8 % 256 % 256 = data / 256 := by omega
  have h3 : data % 256 % 256 % 256 = data % 256 := by omega
  rw [h2, h3]
  rw [byte_pack _ _ (by omega)]
  omega

/-- Witness for C8 at device devW, sensor 2, register pair 0xA0/0xA1,
data 0xBEEF. -/
theorem ds620_writeRead_roundTrip_witness :
    (0xBEEF : Nat) < 65536 ∧
    (ds620_ReadRegister16 (ds620_WriteRegister16 devW 2 0xA0 0xBEEF).1 2 0xA0).1 = 0xBEEF :=
  ⟨by decide, ds620_writeRead_roundTrip devW 2 2 0xA0 0xBEEF (by decide)⟩

/-- Claim C9: ds620_ToDecimal is a total pure function of the 16-bit
pattern of its argument: it is defined (produces a value) on every
input, and two calls on arguments carrying the same 16-bit pattern
return the same result; in the embedding it is a Lean function, so it
has no side effects and no failure mode by construction. -/
theorem ds620_ToDecimal_total_pure (r r2 : Nat) (h : r % 65536 = r2 % 65536) :
    (∃ v : Int, ds620_ToDecimal r = v) ∧ ds620_ToDecimal r = ds620_ToDecimal r2 := by
  constructor
  · exact ⟨ds620_ToDecimal r, rfl⟩
  · have h128 : r % 128 = r2 % 128 := by omega
    unfold ds620_ToDecimal
    rw [h, h128]

/-- Witness for C9 at arguments 65537 and 1, which carry the same 16-bit
pattern. -/
theorem ds620_ToDecimal_total_pure_witness :
    (65537 : Nat) % 65536 = (1 : Nat) % 65536 ∧
    ((∃ v : Int, ds620_ToDecimal 65537 = v) ∧ ds620_ToDecimal 65537 = ds620_ToDecimal 1) :=
  ⟨by decide, ds620_ToDecimal_total_pure 65537 1 (by decide)⟩

/-- Claim C10: the result of ds620_ToDecimal always lies in the 9-bit
two's-complement range -256..255. -/
theorem ds620_ToDecimal_range (r : Nat) :
    -256 ≤ ds620_ToDecimal r ∧ ds620_ToDecimal r ≤ 255 := by
  rw [toDecimal_eq]
  have hb : r % 65536 < 65536 := Nat.mod_lt _ (by norm_num)
  by_cases h2 : r % 65536 < 32768
  · rw [if_pos h2]
    constructor <;> omega
  · rw [if_neg h2]
    constructor <;> omega

end DS620
